import Mathlib

/-!
Shallow embedding of the jadepy compiler (src/jade/parse.py and
src/jade/compile.py): a single-pass state-machine parser for a Jade-style
template language coupled to an emitter producing Jinja-style output.

Text is modelled as `List Char`.  The lexer cursor (`start`, `pos`), the
parser's indent stacks, and the compiler's open-block stack, deferred-endif
slot and output stream all live in one state record `St`; the state
functions of the source become a `step` function on an enumeration of
states, driven by a fuelled trampoline (`runFrom`).  Fuel is an artifact of
the embedding only: every loop of the source consumes input.
-/

namespace Jade

/-- Convert a string literal to the character-list representation used
throughout the embedding. -/
def cs (s : String) : List Char := s.toList

/-- Single-quote character (written via code point to keep sources plain). -/
def squote : Char := Char.ofNat 39

/-- Opening-brace character. -/
def lbrace : Char := '\x7b'

/-- Closing-brace character. -/
def rbrace : Char := '\x7d'

/-- Source `utils.has_proper_prefix(s, p)`: `len(s) > len(p) and s.startswith(p)`. -/
def properlyExtends (s p : List Char) : Bool :=
  p.length < s.length && p.isPrefixOf s

/-- Character class `valid_in_tags` (ASCII letters and digits). -/
def isTagChar (c : Char) : Bool := c.isAlpha || c.isDigit

/-- Character class `valid_in_keys` (ASCII letters plus `-` and `:`). -/
def isKeyChar (c : Char) : Bool := c.isAlpha || c = '-' || c = ':'

/-- Character class `valid_in_idents` (ASCII letters, digits, `-`, `_`). -/
def isIdentChar (c : Char) : Bool := c.isAlpha || c.isDigit || c = '-' || c = '_'

/-- Inline whitespace: space and tab. -/
def isInlineWs (c : Char) : Bool := c = ' ' || c = '\t'

/-- Python dict assignment `d[k] = v` on an association list: replace in
place if the key exists, else append. -/
def dictSet (k v : List Char) : List (List Char × List Char) → List (List Char × List Char)
  | [] => [(k, v)]
  | (k2, v2) :: rest => if k2 = k then (k, v) :: rest else (k2, v2) :: dictSet k v rest

/-- Python `d.pop(k)`: value of `k` together with the mapping without `k`,
or `none` when absent. -/
def dictPop (k : List Char) : List (List Char × List Char) →
    Option (List Char × List (List Char × List Char))
  | [] => none
  | (k2, v2) :: rest =>
    if k2 = k then some (v2, rest)
    else (dictPop k rest).map (fun p => (p.1, (k2, v2) :: p.2))

/-- Python `d.get(k)` on the association list. -/
def dictGet (k : List Char) : List (List Char × List Char) → Option (List Char)
  | [] => none
  | (k2, v2) :: rest => if k2 = k then some v2 else dictGet k rest

/-- Number of positions at which `pat` occurs in `s` as a contiguous slice. -/
def countSub (pat s : List Char) : Nat :=
  ((List.range (s.length + 1)).filter (fun i => pat.isPrefixOf (s.drop i))).length

/-- Source class `HTMLTag` (parse.py): tag name, optional class and id
shorthands, and the attribute mapping.  The source stores `attr` in a
Python 2 builtin dict; the embedding uses an insertion-ordered association
list, which agrees with the source wherever at most one key remains. -/
structure HTMLTag where
  name : List Char
  class_ : Option (List Char)
  id_ : Option (List Char)
  attr : List (List Char × List Char)
deriving DecidableEq

/-- The closed sum of the source's `HTMLTag` and `ControlTag`.  A
`ControlTag` carries `name`, optional `head`, and the scratch fields
`var`, `seen_when`, `seen_default` that compile.py sets for the
`case`/`when`/`default` construct. -/
inductive Tag where
  | html (t : HTMLTag)
  | control (name : List Char) (head : Option (List Char)) (var : List Char)
      (seenWhen : Bool) (seenDefault : Bool)
deriving DecidableEq

/-- ControlTag constructor as written in parse.py: scratch fields unset. -/
def mkControl (name : List Char) (head : Option (List Char)) : Tag :=
  .control name head [] false false

/-- Shared `.name` accessor, used by compile.py on both variants. -/
def Tag.name : Tag → List Char
  | .html t => t.name
  | .control n _ _ _ _ => n

/-- Errors.  `lex` mirrors `LexError`/`LexerBug` (`isBug` distinguishes the
two classes): message, line number, column, and offending source line.
`stateInconsistent` is the trampoline's `start != pos` assertion (in the
source this `raise LexerBug(...)` call itself crashes, since
`LexError.__init__` needs three arguments).  `popEmpty` is the Python
`IndexError` of popping an empty block stack, and `fuelExhausted` is the
embedding's fuel artifact; neither is reachable from the parser. -/
inductive Err where
  | lex (isBug : Bool) (msg : List Char) (lineno : Nat) (colno : Int) (srcLine : List Char)
  | stateInconsistent
  | popEmpty
  | fuelExhausted
deriving DecidableEq

/-- The combined lexer/parser/compiler state.  Stacks (`indentLevels`,
`indentedBlocks`, `blocks`) keep their top at the head of the list (the
source keeps the top at the end). -/
structure St where
  text : List Char
  start : Nat
  pos : Nat
  newlinePos : List Int
  indentLevels : List (List Char)
  indentedBlocks : List Nat
  thisTag : HTMLTag
  thisTagAttrKey : List Char
  verbatimLeader : List Char
  blocks : List Tag
  deferredEndif : Option (List Char × List Char)
  tmpvarCount : Nat
  out : List Char
deriving DecidableEq

/-- Indices of all newline characters in the text, as `find_all` yields them. -/
def newlineIdx : List Char → Nat → List Int
  | [], _ => []
  | c :: rest, i =>
    if c = '\n' then (i : Int) :: newlineIdx rest (i + 1) else newlineIdx rest (i + 1)

/-- The precomputed `newline_pos` list: sentinel `-1`, the newline indices,
and sentinel `len(text)`. -/
def newlinePosOf (text : List Char) : List Int :=
  -1 :: (newlineIdx text 0 ++ [(text.length : Int)])

/-- Initial state: cursor at 0, indent stacks `[""]`/`[0]`, empty compiler
state.  `this_tag` is unset in the source before its first assignment; the
placeholder is only readable on paths the source cannot reach before
assigning it. -/
def St.init (text : List Char) : St :=
  { text := text
    start := 0
    pos := 0
    newlinePos := newlinePosOf text
    indentLevels := [[]]
    indentedBlocks := [0]
    thisTag := ⟨[], none, none, []⟩
    thisTagAttrKey := []
    verbatimLeader := []
    blocks := []
    deferredEndif := none
    tmpvarCount := 0
    out := [] }

/-- Remaining input from the read head. -/
def textAfter (st : St) : List Char := st.text.drop st.pos

/-- Driver `peek(n)`: next `n` characters (shorter near EOF), no advance. -/
def peekN (n : Nat) (st : St) : List Char := (textAfter st).take n

/-- Single-character peek as an option (Python returns `''` at EOF). -/
def peek1 (st : St) : Option Char := (textAfter st).head?

/-- Driver `advance(n)`: `pos += n` unconditionally (it may pass the end,
exactly as in the source). -/
def advanceN (n : Nat) (st : St) : St := { st with pos := st.pos + n }

/-- Driver `backup(n)`. -/
def backupN (n : Nat) (st : St) : St := { st with pos := st.pos - n }

/-- Driver `drop()`. -/
def dropL (st : St) : St := { st with start := st.pos }

/-- Driver `rollback()`. -/
def rollbackL (st : St) : St := { st with pos := st.start }

/-- Driver `conclude()`: the pending lexeme `text[start:pos]`, with
`start := pos`. -/
def concludeL (st : St) : List Char × St :=
  ((st.text.drop st.start).take (st.pos - st.start), { st with start := st.pos })

/-- Driver `off_end()`. -/
def offEnd (st : St) : Bool := st.text.length ≤ st.pos

/-- Driver `accept(v)` for a single alternative. -/
def acceptOne (v : List Char) (st : St) : Option St :=
  if peekN v.length st = v then some (advanceN v.length st) else none

/-- Driver `accept(*alts)`: try the alternatives in order; return the
matched text (empty when none matched) and the updated state. -/
def acceptL : List (List Char) → St → List Char × St
  | [], st => ([], st)
  | v :: vs, st =>
    match acceptOne v st with
    | some st2 => (v, st2)
    | none => acceptL vs st

/-- Driver `accept_run(valid)`: consume the maximal run satisfying the
predicate. -/
def acceptRun (p : Char → Bool) (st : St) : List Char × St :=
  let r := (textAfter st).takeWhile p
  (r, advanceN r.length st)

/-- Helper `_advance_line`: advance to the next newline or EOF. -/
def advanceLine (st : St) : St :=
  advanceN ((textAfter st).takeWhile (fun c => c ≠ '\n')).length st

/-- Helper `_drop_inline_whitespace`. -/
def dropInlineWs (st : St) : St := dropL (acceptRun isInlineWs st).2

/-- Driver `error(msg)`: line number by binary search of `start` in
`newline_pos`, column `pos - last_newline`, and the slice of the offending
line.  (`countP (< start)` equals `bisect_left` on the sorted list.) -/
def mkError (st : St) (isBug : Bool) (msg : List Char) : Err :=
  let lineno := st.newlinePos.countP (fun a => decide (a < (st.start : Int)))
  let lastNl := st.newlinePos.getD (lineno - 1) 0
  let colno := (st.pos : Int) - lastNl
  let upper := st.newlinePos.getD lineno 0
  let lo := (lastNl + 1).toNat
  let srcLine := (st.text.drop lo).take (upper.toNat - lo)
  .lex isBug msg lineno colno srcLine

/-- Modelled from the spec (for comparison only): the diagnostic §4.1/§7
describes, with BOTH coordinates derived from `start` — the column is
`start - last_newline` instead of the source's `pos - last_newline`. -/
def mkErrorSpec (st : St) (isBug : Bool) (msg : List Char) : Err :=
  let lineno := st.newlinePos.countP (fun a => decide (a < (st.start : Int)))
  let lastNl := st.newlinePos.getD (lineno - 1) 0
  let colno := (st.start : Int) - lastNl
  let upper := st.newlinePos.getD lineno 0
  let lo := (lastNl + 1).toNat
  let srcLine := (st.text.drop lo).take (upper.toNat - lo)
  .lex isBug msg lineno colno srcLine

/-- Python `'%s' % head` where `head` may be `None`. -/
def headOrNone : Option (List Char) → List Char
  | some h => h
  | none => cs "None"

/-- Lower-case a character list (Python `str.lower`, ASCII suffices here). -/
def lowerL (s : List Char) : List Char := s.map Char.toLower

/-- The `doctypes` lookup table of compile.py. -/
def doctypes (k : List Char) : Option (List Char) :=
  if k = cs "5" then some (cs "<!DOCTYPE html>")
  else if k = cs "default" then some (cs "<!DOCTYPE html>")
  else if k = cs "xml" then some (cs "<?xml version=\"1.0\" encoding=\"utf-8\" ?>")
  else if k = cs "transitional" then
    some (cs "<!DOCTYPE html PUBLIC \"-//W3C//DTD XHTML 1.0 Transitional//EN\" \"http://www.w3.org/TR/xhtml1/DTD/xhtml1-transitional.dtd\">")
  else if k = cs "strict" then
    some (cs "<!DOCTYPE html PUBLIC \"-//W3C//DTD XHTML 1.0 Strict//EN\" \"http://www.w3.org/TR/xhtml1/DTD/xhtml1-strict.dtd\">")
  else if k = cs "frameset" then
    some (cs "<!DOCTYPE html PUBLIC \"-//W3C//DTD XHTML 1.0 Frameset//EN\" \"http://www.w3.org/TR/xhtml1/DTD/xhtml1-frameset.dtd\">")
  else if k = cs "1.1" then
    some (cs "<!DOCTYPE html PUBLIC \"-//W3C//DTD XHTML 1.1//EN\" \"http://www.w3.org/TR/xhtml11/DTD/xhtml11.dtd\">")
  else if k = cs "basic" then
    some (cs "<!DOCTYPE html PUBLIC \"-//W3C//DTD XHTML Basic 1.1//EN\" \"http://www.w3.org/TR/xhtml-basic/xhtml-basic11.dtd\">")
  else if k = cs "mobile" then
    some (cs "<!DOCTYPE html PUBLIC \"-//WAPFORUM//DTD XHTML Mobile 1.2//EN\" \"http://www.openmobilealliance.org/tech/DTD/xhtml-mobile12.dtd\">")
  else none

/-- compile.py `doctype(tag)`: `doctypes.get(head.lower() or 'default',
'<!DOCTYPE %s>' % head)`. -/
def doctypeText (head : Option (List Char)) : List Char :=
  let h := headOrNone head
  let key := if lowerL h = [] then cs "default" else lowerL h
  (doctypes key).getD (cs "<!DOCTYPE " ++ h ++ cs ">")

/-- compile.py `default_start`: `'{% name head %}'`. -/
def defaultOpen (name : List Char) (head : Option (List Char)) : List Char :=
  cs "\x7b% " ++ name ++ cs " " ++ headOrNone head ++ cs " %\x7d"

/-- compile.py `default_end`: `'{% endname %}'`. -/
def defaultClose (name : List Char) : List Char :=
  cs "\x7b% end" ++ name ++ cs " %\x7d"

/-- Opener half of the `control_blocks` dispatch table. -/
def controlOpener (name : List Char) (head : Option (List Char)) : List Char :=
  if name = cs "=" then cs "\x7b\x7b "
  else if name = cs "!=" then cs "\x7b\x7b "
  else if name = cs "-" then cs "\x7b% "
  else if name = cs "|" then []
  else if name = cs "//" then cs "<!--" ++ headOrNone head
  else if name = cs "//-" then cs "\x7b#"
  else if name = cs ":" then cs "\x7b% filter " ++ headOrNone head ++ cs " %\x7d"
  else if name = cs "mixin" then cs "\x7b% macro " ++ headOrNone head ++ cs " %\x7d"
  else if name = cs "prepend" then cs "\x7b% block " ++ headOrNone head ++ cs " %\x7d"
  else if name = cs "append" then
    cs "\x7b% block " ++ headOrNone head ++ cs " %\x7d \x7b\x7b super() \x7d\x7d"
  else if name = cs "extends" then defaultOpen name head
  else if name = cs "doctype" then doctypeText head
  else if name = cs "else" then cs "\x7b% else %\x7d"
  else defaultOpen name head

/-- Closer half of the `control_blocks` dispatch table. -/
def controlCloser (name : List Char) : List Char :=
  if name = cs "=" then cs " \x7d\x7d"
  else if name = cs "!=" then cs " |safe\x7d\x7d"
  else if name = cs "-" then cs " %\x7d"
  else if name = cs "|" then []
  else if name = cs "//" then cs "-->"
  else if name = cs "//-" then cs "#\x7d"
  else if name = cs ":" then cs "\x7b% endfilter %\x7d"
  else if name = cs "mixin" then cs "\x7b% endmacro %\x7d"
  else if name = cs "prepend" then cs "\x7b\x7b super() \x7d\x7d \x7b% endblock %\x7d"
  else if name = cs "append" then cs "\x7b% endblock %\x7d"
  else if name = cs "extends" then []
  else if name = cs "doctype" then []
  else if name = cs "else" then cs "\x7b% endif %\x7d"
  else defaultClose name

/-- Append to the output stream. -/
def write (s : List Char) (st : St) : St := { st with out := st.out ++ s }

/-- Compiler `put_endif`: flush the deferred close (closer then trailing
whitespace) and clear the slot. -/
def put_endif (st : St) : St :=
  match st.deferredEndif with
  | some p => { write (p.1 ++ p.2) st with deferredEndif := none }
  | none => st

/-- Compiler `dismiss_endif`: emit only the trailing whitespace and clear
the slot. -/
def dismiss_endif (st : St) : St :=
  match st.deferredEndif with
  | some p => { write p.2 st with deferredEndif := none }
  | none => st

/-- Compiler `literal(text)`: flush any deferred close, then write. -/
def cLiteral (text : List Char) (st : St) : St := write text (put_endif st)

/-- Compiler `newlines(text)`: stash the newlines in the deferred slot when
one is pending, else emit them as a literal. -/
def cNewlines (text : List Char) (st : St) : St :=
  match st.deferredEndif with
  | some p => { st with deferredEndif := some (p.1, text) }
  | none => cLiteral text st

/-- Compiler `end()`. -/
def cEnd (st : St) : St := put_endif st

/-- Compiler `put_tmpvar(val)`: allocate `_jade_<N>`, write the `set`
statement, return the name. -/
def put_tmpvar (val : List Char) (st : St) : List Char × St :=
  let name := cs "_jade_" ++ (Nat.repr st.tmpvarCount).toList
  let st := { st with tmpvarCount := st.tmpvarCount + 1 }
  (name, write (cs "\x7b% set " ++ name ++ cs " = " ++ val ++ cs " %\x7d") st)

/-- Python truthiness for the optional string fields `class_`/`id_`
(`None` and the empty string are falsy). -/
def optTruthy : Option (List Char) → Bool
  | none => false
  | some s => !s.isEmpty

/-- HTML-opener emission of `start_block`: write `<name`, reconcile `id`
and `class` between shorthand and attribute list, then the remaining
attributes, then `>`.  Returns the tag with the popped keys removed (the
source mutates the tag object that sits on the block stack). -/
def emitHtmlOpen (t : HTMLTag) (st : St) : HTMLTag × St :=
  let st := write (cs "<" ++ t.name) st
  let idStep :=
    match dictPop (cs "id") t.attr with
    | some p => (cs " id=\"\x7b\x7b " ++ p.1 ++ cs " |escape\x7d\x7d\"", p.2)
    | none =>
      (if optTruthy t.id_ then cs " id=\"" ++ t.id_.getD [] ++ cs "\"" else [], t.attr)
  let st := write idStep.1 st
  let classStep :=
    match dictPop (cs "class") idStep.2 with
    | some p =>
      let pre := if optTruthy t.class_ then t.class_.getD [] ++ cs " " else []
      (cs " class=\"" ++ pre ++ cs "\x7b\x7b _jade_class(" ++ p.1 ++ cs ") |escape\x7d\x7d\"",
        p.2)
    | none =>
      (if optTruthy t.class_ then cs " class=\"" ++ t.class_.getD [] ++ cs "\"" else [],
        idStep.2)
  let st := write classStep.1 st
  let st := classStep.2.foldl
    (fun acc kv => write (cs " " ++ kv.1 ++ cs "=\"\x7b\x7b " ++ kv.2 ++ cs " |escape\x7d\x7d\"") acc)
    st
  (⟨t.name, t.class_, t.id_, classStep.2⟩, write (cs ">") st)

/-- Compiler `start_block(tag)`: dismiss or flush the deferred close, push
the tag, and write the block opener (HTML opener, `case`/`when`/`default`
handling, or the control-blocks table).  Errors are the `parser.error`
raises of compile.py. -/
def start_block (tag : Tag) (st : St) : Except (Err × St) St :=
  let st := if tag.name = cs "elif" || tag.name = cs "else" then dismiss_endif st
            else put_endif st
  match tag with
  | .html t =>
    let r := emitHtmlOpen t st
    .ok { r.2 with blocks := .html r.1 :: r.2.blocks }
  | .control name head _ _ _ =>
    if name = cs "case" then
      let r := put_tmpvar (headOrNone head) st
      .ok { r.2 with blocks := .control name head r.1 false false :: r.2.blocks }
    else if name = cs "when" || name = cs "default" then
      -- the source pushes first, then inspects blocks[-2] (the previous top)
      match st.blocks with
      | Tag.control cname chead cvar csw csd :: rest =>
        if cname = cs "case" then
          if name = cs "when" then
            if csd then
              let stP := { st with blocks := tag :: st.blocks }
              .error (mkError stP false (cs "when tag after default tag"), stP)
            else
              let kw := if csw then cs "elif" else cs "if"
              let st := write (cs "\x7b% " ++ kw ++ cs " " ++ cvar ++ cs " == " ++
                headOrNone head ++ cs " %\x7d") st
              .ok { st with blocks := tag :: Tag.control cname chead cvar true csd :: rest }
          else
            if csd then
              let stP := { st with blocks := tag :: st.blocks }
              .error (mkError stP false (cs "duplicate default tag"), stP)
            else if !csw then
              let stP := { st with blocks := tag :: st.blocks }
              .error (mkError stP false (cs "default tag before when tag"), stP)
            else
              let st := write (cs "\x7b% else %\x7d") st
              .ok { st with blocks := tag :: Tag.control cname chead cvar csw true :: rest }
        else
          let stP := { st with blocks := tag :: st.blocks }
          .error (mkError stP false (name ++ cs " tag not child of case tag"), stP)
      | _ =>
        let stP := { st with blocks := tag :: st.blocks }
        .error (mkError stP false (name ++ cs " tag not child of case tag"), stP)
    else
      .ok (write (controlOpener name head) { st with blocks := tag :: st.blocks })

/-- Compiler `end_block()`: pop the top tag and emit its closer; `if`/`elif`
closers go to the deferred slot instead of the stream. -/
def end_block (st : St) : Except (Err × St) St :=
  match st.blocks with
  | [] => .error (.popEmpty, st)
  | tag :: rest =>
    let st := { st with blocks := rest }
    match tag with
    | .html t => .ok (write (cs "</" ++ t.name ++ cs ">") st)
    | .control name _ _ sw _ =>
      if name = cs "if" || name = cs "elif" then
        .ok { st with deferredEndif := some (cs "\x7b% endif %\x7d", []) }
      else if name = cs "case" then
        if !sw then .error (mkError st false (cs "case tag has no when child"), st)
        else .ok (write (cs "\x7b% endif %\x7d") st)
      else if name = cs "when" || name = cs "default" then .ok st
      else .ok (write (controlCloser name) st)

/-- Close `n` blocks in sequence (the dedent loop of the `indent` state). -/
def closeBlocks : Nat → St → Except (Err × St) St
  | 0, st => .ok st
  | n + 1, st =>
    match end_block st with
    | .error e => .error e
    | .ok st2 => closeBlocks n st2

/-- The parser's state functions, as an enumeration driven by `step`. -/
inductive PState where
  | indent
  | tag
  | verbatim
  | maybeQualifier
  | qualifier
  | maybeAttrKey
  | afterAttrKey
  | expr
  | maybeTagConcluder
  | singleLineLiteral
  | endState
deriving DecidableEq

/-- Outcome of one state invocation: transition, terminate, or raise. -/
inductive StepOut where
  | next (p : PState) (st : St)
  | stop (st : St)
  | err (e : Err) (st : St)
deriving DecidableEq

/-- Run compiler `start_block` and transition (or surface its error). -/
def startBlockStep (t : Tag) (nxt : PState) (st : St) : StepOut :=
  match start_block t st with
  | .error e => .err e.1 e.2
  | .ok st2 => .next nxt st2

/-- The `control_tags` vocabulary, alias keys first exactly as the source
builds the list (`control_tag_aliases.keys() + [...]`; no two alias keys
can match the same input, so their relative order is immaterial). -/
def controlTags : List (List Char) :=
  [cs "else if", cs "!!!", cs "each", cs "block append", cs "block prepend",
   cs "//", cs "doctype", cs "extends", cs "if", cs "elif", cs "else", cs "for",
   cs "block", cs "append", cs "prepend"]

/-- The `control_tag_aliases` mapping (identity off its domain). -/
def aliasOf (name : List Char) : List Char :=
  if name = cs "else if" then cs "elif"
  else if name = cs "!!!" then cs "doctype"
  else if name = cs "each" then cs "for"
  else if name = cs "block append" then cs "append"
  else if name = cs "block prepend" then cs "prepend"
  else name

/-- Python substring membership `peek() in chars` (the empty peek is a
substring of anything, hence `true` at EOF). -/
def peekMem (st : St) (chars : List Char) : Bool :=
  match peek1 st with
  | none => true
  | some c => chars.contains c

/-- Increment `indented_blocks[-1]` (top of the indent-block counter stack). -/
def bumpBlocks (st : St) : St :=
  { st with indentedBlocks :=
      match st.indentedBlocks with
      | b :: bs => (b + 1) :: bs
      | [] => [] }

/-- Stage of the `tag` state after all accepts failed: an ordinary HTML tag,
an implicit `div`, or the "No valid tag found" error. -/
def tagHtmlStage (st : St) : StepOut :=
  let r := acceptRun isTagChar st
  if r.1 ≠ [] then
    let c := concludeL r.2
    .next .maybeQualifier { c.2 with thisTag := ⟨c.1, none, none, []⟩ }
  else if peekMem st (cs ".#(") then
    .next .qualifier { st with thisTag := ⟨cs "div", none, none, []⟩ }
  else
    .err (mkError st false (cs "No valid tag found")) st

/-- Stage of the `tag` state handling the control-tag vocabulary. -/
def tagControlStage (st : St) : StepOut :=
  let a := acceptL controlTags st
  if h : a.1 = [] then tagHtmlStage a.2
  else
    let terminator := peek1 a.2
    if isTagChar (a.1.getLast h) &&
        (match terminator with | some c => isTagChar c | none => false) then
      tagHtmlStage (rollbackL a.2)
    else
      let name := aliasOf a.1
      let st := advanceLine (dropInlineWs a.2)
      let c := concludeL st
      startBlockStep (mkControl name (some c.1)) .indent c.2

/-- Stage of the `tag` state handling the pipe tag. -/
def tagPipeStage (st : St) : StepOut :=
  let a := acceptL [cs "|"] st
  if a.1 ≠ [] then
    startBlockStep (mkControl (cs "|") none) .singleLineLiteral (dropL a.2)
  else tagControlStage a.2

/-- Stage of the `tag` state handling the filter block `:<name>`. -/
def tagFilterStage (st : St) : StepOut :=
  let a := acceptL [cs ":"] st
  if a.1 ≠ [] then
    let r := acceptRun isTagChar a.2
    if r.1 ≠ [] then
      let c := concludeL r.2
      startBlockStep (mkControl (cs ":") (some (c.1.drop 1))) .verbatim c.2
    else tagPipeStage (rollbackL r.2)
  else tagPipeStage a.2

/-- The `tag` state: count the block at this indent, then dispatch on
verbatim leaders, filter, pipe, control tags, and HTML tags. -/
def stTag (st : St) : StepOut :=
  let st := bumpBlocks st
  let a := acceptL [cs "//-", cs "-", cs "=", cs "!="] st
  if a.1 ≠ [] then
    let c := concludeL a.2
    startBlockStep (mkControl c.1 none) .verbatim c.2
  else tagFilterStage a.2

/-- Walk of the `indent` state on an unchanged-or-decreased indent: from the
top of the stacks, sum the blocks to close until reaching a level that the
new indent no longer properly extends; that level must equal the indent
exactly.  Returns the count and the truncated stacks, or `none` for the
"Bad indentation" error.  The bottom level `""` always stops the walk, so
the length-mismatch arm is unreachable. -/
def indentWalk (txt : List Char) :
    List (List Char) → List Nat → Nat → Option (Nat × List (List Char) × List Nat)
  | lvl :: lvls, b :: bs, acc =>
    let acc := acc + b
    if properlyExtends lvl txt then indentWalk txt lvls bs acc
    else if lvl = txt then some (acc, lvl :: lvls, 0 :: bs)
    else none
  | _, _, _ => none

/-- The `indent` state: consume newlines then inline whitespace, adjust the
indent stacks, close dedented blocks, and hand the newline run to the
compiler. -/
def stIndent (st : St) : StepOut :=
  let nl := acceptRun (fun c => c = '\n') st
  let ws := acceptRun isInlineWs nl.2
  let st := dropL ws.2
  if properlyExtends ws.1 (st.indentLevels.headD []) then
    let st := { st with indentLevels := ws.1 :: st.indentLevels,
                        indentedBlocks := 0 :: st.indentedBlocks }
    .next .tag (cNewlines nl.1 st)
  else
    match indentWalk ws.1 st.indentLevels st.indentedBlocks 0 with
    | none => .err (mkError st false (cs "Bad indentation")) st
    | some w =>
      let st := { st with indentLevels := w.2.1, indentedBlocks := w.2.2 }
      match closeBlocks w.1 st with
      | .error e => .err e.1 e.2
      | .ok st2 => .next .tag (cNewlines nl.1 st2)

/-- Loop of the `verbatim` state: swallow lines whose indentation properly
extends the current level; at the first that does not, back up by the
indentation length plus one and emit the collected literal. -/
def verbLoop : Nat → St → StepOut
  | 0, st => .err .fuelExhausted st
  | fuel + 1, st =>
    let nl := acceptRun (fun c => c = '\n') st
    let ws := acceptRun isInlineWs nl.2
    if !properlyExtends ws.1 (ws.2.indentLevels.headD []) then
      let st := backupN (ws.1.length + 1) ws.2
      let c := concludeL st
      .next .indent (cLiteral c.1 c.2)
    else verbLoop fuel (advanceLine ws.2)

/-- The `verbatim` state body (inline whitespace already skipped). -/
def stVerbatim (st : St) : StepOut :=
  verbLoop (st.text.length + 2) (advanceLine st)

/-- The `maybe_qualifier` state. -/
def stMaybeQualifier (st : St) : StepOut :=
  if peekMem st (cs "#(") then .next .qualifier st
  else if peek1 st = some '.' then
    match peekN 2 st with
    | [_, c2] => if isIdentChar c2 then .next .qualifier st else .next .maybeTagConcluder st
    | _ => .next .maybeTagConcluder st
  else .next .maybeTagConcluder st

/-- The `qualifier` state: `require` one of `.`, `#`, `(`, then record the
id, the class, or enter the attribute list. -/
def stQualifier (st : St) : StepOut :=
  let a := acceptL [cs ".", cs "#", cs "("] st
  if a.1 = [] then
    .err (mkError st true (cs "Require one of")) st
  else
    let st := dropL a.2
    if a.1 = cs "#" then
      let r := acceptRun isIdentChar st
      if r.1 = [] then .err (mkError st false (cs "No valid id found")) st
      else
        let c := concludeL r.2
        .next .maybeQualifier { c.2 with thisTag := { c.2.thisTag with id_ := some c.1 } }
    else if a.1 = cs "." then
      let r := acceptRun isIdentChar st
      let c := concludeL r.2
      .next .maybeQualifier { c.2 with thisTag := { c.2.thisTag with class_ := some c.1 } }
    else .next .maybeAttrKey st

/-- The `maybe_attr_key` state body (whitespace already skipped).  Note that
on `)` the source only drops the pending lexeme; it does not consume the
parenthesis. -/
def stMaybeAttrKey (st : St) : StepOut :=
  if peek1 st = some ')' then .next .maybeQualifier (dropL st)
  else
    let r := acceptRun isKeyChar st
    if r.1 = [] then .err (mkError st false (cs "No valid attribute key found")) st
    else
      let c := concludeL r.2
      .next .afterAttrKey { c.2 with thisTagAttrKey := c.1 }

/-- The `after_attr_key` state body: one character decides between a value
expression, the next key, or the end of the list. -/
def stAfterAttrKey (st : St) : StepOut :=
  let r := peek1 st
  let st := dropL (advanceN 1 st)
  match r with
  | some '=' => .next .expr st
  | some ',' => .next .maybeAttrKey st
  | some ')' => .next .maybeQualifier st
  | _ => .err (mkError st false (cs "Bad character after attribute key")) st

/-- Which opener matches a closing bracket in the expression scanner. -/
def openerOf (c : Char) : Char :=
  if c = ')' then '(' else if c = ']' then '[' else lbrace

/-- Loop of the `expr` state: scan a host expression, tracking a string
quote and a bracket stack; a `,` or `)` at depth zero outside a string
terminates it, recording `attr[key]` without the terminator. -/
def exprLoop : Nat → Option Char → List Char → St → StepOut
  | 0, _, _, st => .err .fuelExhausted st
  | fuel + 1, quote, enclose, st =>
    let r := peek1 st
    let st := advanceN 1 st
    match r with
    | none => .err (mkError st false (cs "Unterminated Python expression")) st
    | some rune =>
      match quote with
      | some q =>
        if rune = q then exprLoop fuel none enclose st
        else if rune = '\\' then
          let r2 := peek1 st
          let st := advanceN 1 st
          match r2 with
          | none => .err (mkError st false (cs "Unterminated string literal")) st
          | some _ => exprLoop fuel quote enclose st
        else exprLoop fuel quote enclose st
      | none =>
        if (rune = ',' || rune = ')') && enclose = [] then
          let c := concludeL st
          let st := { c.2 with thisTag :=
            { c.2.thisTag with attr := dictSet c.2.thisTagAttrKey c.1.dropLast c.2.thisTag.attr } }
          .next (if rune = ',' then .maybeAttrKey else .maybeQualifier) st
        else if rune = '"' || rune = squote then exprLoop fuel (some rune) enclose st
        else if rune = '(' || rune = '[' || rune = lbrace then
          exprLoop fuel quote (rune :: enclose) st
        else if rune = ')' || rune = ']' || rune = rbrace then
          match enclose with
          | [] => .err (mkError st false (cs "No opening bracket to close")) st
          | top :: restE =>
            if top = openerOf rune then exprLoop fuel quote restE st
            else .err (mkError st false (cs "Closing bracket does not match opening")) st
        else exprLoop fuel quote enclose st

/-- The `maybe_tag_concluder` state: commit the built HTML tag, then
dispatch on `:`, `!=`/`=` (back up ONE character and re-enter `tag`),
`.`, or none. -/
def stMaybeTagConcluder (st : St) : StepOut :=
  match start_block (.html st.thisTag) st with
  | .error e => .err e.1 e.2
  | .ok st =>
    let a := acceptL [cs ":"] st
    if a.1 ≠ [] then .next .tag (dropInlineWs (dropL a.2))
    else
      let b := acceptL [cs "!=", cs "="] a.2
      if b.1 ≠ [] then .next .tag (backupN 1 b.2)
      else
        let d := acceptL [cs "."] b.2
        if d.1 ≠ [] then
          let c := concludeL d.2
          .next .verbatim { c.2 with verbatimLeader := c.1 }
        else .next .singleLineLiteral d.2

/-- The `single_line_literal` state: drop leading inline whitespace, consume
to end of line, emit the text if non-empty. -/
def stSingleLineLiteral (st : St) : StepOut :=
  let st := advanceLine (dropInlineWs st)
  let c := concludeL st
  .next .indent (if c.1 ≠ [] then cLiteral c.1 c.2 else c.2)

/-- One invocation of the current state, with the `allow_eof` and
`skip_inline_whitespace` decorators of the source applied per state. -/
def step : PState → St → StepOut
  | .indent, st => if offEnd st then .next .endState st else stIndent st
  | .tag, st => if offEnd st then .next .endState st else stTag st
  | .verbatim, st => stVerbatim (dropInlineWs st)
  | .maybeQualifier, st => if offEnd st then .next .endState st else stMaybeQualifier st
  | .qualifier, st => stQualifier st
  | .maybeAttrKey, st => stMaybeAttrKey (dropInlineWs st)
  | .afterAttrKey, st => stAfterAttrKey (dropInlineWs st)
  | .expr, st =>
    let st := dropInlineWs st
    exprLoop (st.text.length + 2) none [] st
  | .maybeTagConcluder, st => stMaybeTagConcluder st
  | .singleLineLiteral, st => stSingleLineLiteral st
  | .endState, st => .stop (cEnd st)

/-- Result of a full run: normal termination, a raised error, or exhausted
trampoline fuel (an embedding artifact).  Every constructor carries the
final state, whose `out` is whatever was written to the stream. -/
inductive Result where
  | done (st : St)
  | failed (e : Err) (st : St)
  | fuelOut (st : St)
deriving DecidableEq

/-- The trampoline of `AbstractLexer.__call__`: assert `start == pos`
before every state invocation, then dispatch until a state terminates. -/
def runFrom : Nat → PState → St → Result
  | 0, _, st => .fuelOut st
  | fuel + 1, p, st =>
    if st.start ≠ st.pos then .failed .stateInconsistent st
    else
      match step p st with
      | .err e st2 => .failed e st2
      | .stop st2 => .done st2
      | .next p2 st2 => runFrom fuel p2 st2

/-- Compile a full input: the parser starts in the `tag` state. -/
def runJade (fuel : Nat) (text : List Char) : Result :=
  runFrom fuel .tag (St.init text)

/-- Final state of a run. -/
def Result.state : Result → St
  | .done st => st
  | .failed _ st => st
  | .fuelOut st => st

/-- Everything written to the output stream. -/
def Result.outText (r : Result) : List Char := r.state.out

/-- The raised error, when the run failed. -/
def Result.errorOf : Result → Option Err
  | .failed e _ => some e
  | _ => none

/-- Message of the raised error, when it is a diagnostic. -/
def Result.errMsg : Result → Option (List Char)
  | .failed (.lex _ m _ _ _) _ => some m
  | _ => none

/-- Bug flag of the raised error, when it is a diagnostic. -/
def Result.errIsBug : Result → Option Bool
  | .failed (.lex b _ _ _ _) _ => some b
  | _ => none

/-- Whether the run terminated normally (input accepted). -/
def Result.isDone : Result → Bool
  | .done _ => true
  | _ => false

set_option maxRecDepth 8000

/-- C1: the claim says that for every accepted input the emitter's
open-block stack is empty when `end()` runs, in particular that a single
tag line without a trailing newline has its block closed.  The code
refutes this: `"p hello"` (no trailing newline) is accepted (the run
terminates normally), yet the `<p>` block is still on the open-block stack
at `end()` and no `</p>` is ever written — `allow_eof` routes every
EOF-aware state straight to `end`, so the dedent handling in `indent` that
closes blocks never runs for an input that does not end in a newline. -/
theorem c1_block_left_open_at_eof :
    (runJade 300 (cs "p hello")).isDone = true ∧
    (runJade 300 (cs "p hello")).state.blocks = [Tag.html ⟨cs "p", none, none, []⟩] ∧
    (runJade 300 (cs "p hello")).outText = cs "<p>hello" := by
  refine ⟨by decide, by decide, by decide⟩

/-- C2: the claim says the number of `\x7b% if` openers in the output of an
accepted input equals the number of `\x7b% endif %\x7d` closers, even when
several nested `if` blocks are closed by one dedent.  The code refutes
this: closing two nested `if` blocks in one dedent writes the second
deferred close over the first (`end_block` assigns the single
`deferred_endif` slot without flushing it), so the input
`if a\n  if b\n    p x\np y\n` is accepted but its output contains two
`\x7b% if` openers and only one `\x7b% endif %\x7d`. -/
theorem c2_nested_if_loses_endif :
    (runJade 300 (cs "if a\n  if b\n    p x\np y\n")).isDone = true ∧
    (runJade 300 (cs "if a\n  if b\n    p x\np y\n")).outText =
      cs "\x7b% if a %\x7d\n\x7b% if b %\x7d\n<p>x</p>\x7b% endif %\x7d\n<p>y</p>\n" ∧
    countSub (cs "\x7b% if") (runJade 300 (cs "if a\n  if b\n    p x\np y\n")).outText = 2 ∧
    countSub (cs "\x7b% endif %\x7d")
      (runJade 300 (cs "if a\n  if b\n    p x\np y\n")).outText = 1 := by
  refine ⟨by decide, by decide, by decide, by decide⟩

/-- C3 counterexample: the claim says compiling
`if x\n  p yes\nelse\n  p no\n` produces exactly
`\x7b% if x %\x7d\n  <p>yes</p>\n\x7b% else %\x7d\n  <p>no</p>\n\x7b% endif %\x7d`.
The run is accepted but produces a different string: the `indent` state
drops the inline-whitespace part of each indentation (only the newline run
is handed to the emitter), and the `else` block's `\x7b% endif %\x7d`
closer is written directly at the dedent, before the final newline. -/
theorem c3_counterexample :
    (runJade 300 (cs "if x\n  p yes\nelse\n  p no\n")).isDone = true ∧
    (runJade 300 (cs "if x\n  p yes\nelse\n  p no\n")).outText ≠
      cs "\x7b% if x %\x7d\n  <p>yes</p>\n\x7b% else %\x7d\n  <p>no</p>\n\x7b% endif %\x7d" := by
  refine ⟨by decide, by decide⟩

/-- C3 amended: compiling `if x\n  p yes\nelse\n  p no\n` produces exactly
`\x7b% if x %\x7d\n<p>yes</p>\n\x7b% else %\x7d\n<p>no</p>\x7b% endif %\x7d\n`:
the `if` close is deferred and then dismissed at `else` (only its captured
newline is emitted, so the source newline between `p yes` and `else` is
preserved in place), the indentation whitespace is dropped, and the
`endif` produced by closing the `else` block precedes the final newline. -/
theorem c3_amended_exact_output :
    (runJade 300 (cs "if x\n  p yes\nelse\n  p no\n")).isDone = true ∧
    (runJade 300 (cs "if x\n  p yes\nelse\n  p no\n")).outText =
      cs "\x7b% if x %\x7d\n<p>yes</p>\n\x7b% else %\x7d\n<p>no</p>\x7b% endif %\x7d\n" := by
  refine ⟨by decide, by decide⟩

/-- C4 counterexample: the claim says a bare attribute key (no `=`) is
stored with the empty string as its value and emitted as
` key="\x7b\x7b  |escape\x7d\x7d"`.  The code refutes this: for
`a(disabled)\n` the `after_attr_key` state simply transitions away on `,`
or `)` without storing anything, so no entry for `disabled` exists on the
tag and the key never appears in the output. -/
theorem c4_counterexample :
    (runJade 300 (cs "a(disabled)\n")).isDone = true ∧
    dictGet (cs "disabled") (runJade 300 (cs "a(disabled)\n")).state.thisTag.attr = none ∧
    countSub (cs "disabled") (runJade 300 (cs "a(disabled)\n")).outText = 0 := by
  refine ⟨by decide, by decide, by decide⟩

/-- C4 amended: a bare key in an attribute list is discarded entirely — no
entry is added to the tag's attribute mapping and the key does not appear
in the emitted opener, while keys with `=` values are unaffected:
`a(disabled)\n` emits `<a></a>\n`, and `a(disabled, x=1)\n` stores only
`x` and emits `<a x="\x7b\x7b 1 |escape\x7d\x7d"></a>\n`. -/
theorem c4_amended_bare_key_discarded :
    (runJade 300 (cs "a(disabled)\n")).outText = cs "<a></a>\n" ∧
    (runJade 300 (cs "a(disabled, x=1)\n")).isDone = true ∧
    dictGet (cs "disabled") (runJade 300 (cs "a(disabled, x=1)\n")).state.thisTag.attr
      = none ∧
    dictGet (cs "x") (runJade 300 (cs "a(disabled, x=1)\n")).state.thisTag.attr
      = some (cs "1") ∧
    (runJade 300 (cs "a(disabled, x=1)\n")).outText =
      cs "<a x=\"\x7b\x7b 1 |escape\x7d\x7d\"></a>\n" := by
  refine ⟨by decide, by decide, by decide, by decide, by decide⟩

/-- C5: the claim says a tag concluder `=` or `!=` backs up one position and
re-enters `tag` with no error raised.  This holds for `=` but the code
refutes it for `!=`: `accept('!=', '=')` consumes TWO characters for `!=`
while `backup()` restores only one, so the trampoline's `start == pos`
assertion fires on re-entry to `tag` (in the source that very
`raise LexerBug('State starts with inconsistent state')` is itself broken,
passing one argument to a three-argument constructor).  `p!= x\n` fails
after emitting only `<p>`, whereas `p= x\n` compiles to
`<p>\x7b\x7b x \x7d\x7d</p>\n`. -/
theorem c5_neq_concluder_raises :
    (runJade 300 (cs "p!= x\n")).errorOf = some .stateInconsistent ∧
    (runJade 300 (cs "p!= x\n")).outText = cs "<p>" ∧
    (runJade 300 (cs "p= x\n")).isDone = true ∧
    (runJade 300 (cs "p= x\n")).outText = cs "<p>\x7b\x7b x \x7d\x7d</p>\n" := by
  refine ⟨by decide, by decide, by decide, by decide⟩

/-- C6 counterexample: the claim says both coordinates of a diagnostic are
derived from `start`.  The code refutes this: `error(msg)` computes the
line from `start` but the column as `pos - last_newline`, i.e. from the
read head.  On `a(x=1` the expression scanner raises "Unterminated Python
expression" with `start = 4`, `pos = 6`: the reported column is 7, while
the spec's both-from-`start` diagnostic (`mkErrorSpec`) would report 5. -/
theorem c6_counterexample :
    (runJade 300 (cs "a(x=1")).errorOf =
      some (.lex false (cs "Unterminated Python expression") 1 7 (cs "a(x=1")) ∧
    (runJade 300 (cs "a(x=1")).state.start = 4 ∧
    (runJade 300 (cs "a(x=1")).state.pos = 6 ∧
    mkErrorSpec (runJade 300 (cs "a(x=1")).state false (cs "Unterminated Python expression")
      = .lex false (cs "Unterminated Python expression") 1 5 (cs "a(x=1") ∧
    (runJade 300 (cs "a(x=1")).errorOf ≠
      some (mkErrorSpec (runJade 300 (cs "a(x=1")).state false
        (cs "Unterminated Python expression")) := by
  refine ⟨by decide, by decide, by decide, by decide, by decide⟩

/-- C6 amended: every diagnostic carries the message, the line number
derived from `start`, the full offending source line — and the column
derived from `pos` (the read head): the constructed diagnostic is exactly
the spec's both-from-`start` diagnostic with the column shifted by
`pos - start`. -/
theorem c6_amended_column_from_pos (st : St) (b : Bool) (msg : List Char) :
    mkError st b msg =
      match mkErrorSpec st b msg with
      | .lex b2 m2 l2 c2 s2 => .lex b2 m2 l2 (c2 + ((st.pos : Int) - (st.start : Int))) s2
      | e => e := by
  simp only [mkError, mkErrorSpec]
  congr 1
  ring

/-- C7: in the `expr` state a `,` or `)` at bracket depth zero outside a
string literal terminates the attribute expression: the scanned text (the
terminator dropped) is recorded as `attr[key]` and the parser goes to
`maybe_attr_key` on `,` or `maybe_qualifier` on `)`.  In particular the
nested `a(x=f(\x7b"k":","\x7d))` — whose inner `,` sits inside a string
literal and whose inner `)` closes a bracket — parses successfully
storing exactly `f(\x7b"k":","\x7d)` for `x`, and `a(x=1,y=2)\n` stores
both values across the `,` transition. -/
theorem c7_expr_terminator_and_nesting :
    (∀ (fuel : Nat) (st : St), peek1 st = some ',' →
      exprLoop (fuel + 1) none [] st =
        .next .maybeAttrKey
          (let c := concludeL (advanceN 1 st)
           { c.2 with thisTag := { c.2.thisTag with
               attr := dictSet c.2.thisTagAttrKey c.1.dropLast c.2.thisTag.attr } })) ∧
    (∀ (fuel : Nat) (st : St), peek1 st = some ')' →
      exprLoop (fuel + 1) none [] st =
        .next .maybeQualifier
          (let c := concludeL (advanceN 1 st)
           { c.2 with thisTag := { c.2.thisTag with
               attr := dictSet c.2.thisTagAttrKey c.1.dropLast c.2.thisTag.attr } })) ∧
    (runJade 300 (cs "a(x=f(\x7b\"k\":\",\"\x7d))")).isDone = true ∧
    dictGet (cs "x") (runJade 300 (cs "a(x=f(\x7b\"k\":\",\"\x7d))")).state.thisTag.attr
      = some (cs "f(\x7b\"k\":\",\"\x7d)") ∧
    (runJade 300 (cs "a(x=1,y=2)\n")).isDone = true ∧
    dictGet (cs "x") (runJade 300 (cs "a(x=1,y=2)\n")).state.thisTag.attr
      = some (cs "1") ∧
    dictGet (cs "y") (runJade 300 (cs "a(x=1,y=2)\n")).state.thisTag.attr
      = some (cs "2") := by
  refine ⟨?_, ?_, by decide, by decide, by decide, by decide, by decide⟩
  · intro fuel st h
    simp [exprLoop, h]
  · intro fuel st h
    simp [exprLoop, h]

/-- Witness for C7: the comma-terminator case applied at a concrete state. -/
theorem c7_witness :
    peek1 (St.init (cs ",z")) = some ',' ∧
    exprLoop 1 none [] (St.init (cs ",z")) =
      .next .maybeAttrKey
        (let c := concludeL (advanceN 1 (St.init (cs ",z")))
         { c.2 with thisTag := { c.2.thisTag with
             attr := dictSet c.2.thisTagAttrKey c.1.dropLast c.2.thisTag.attr } }) :=
  ⟨by decide, (c7_expr_terminator_and_nesting.1 0 (St.init (cs ",z"))) (by decide)⟩

/-- Helper: `accept` of a single alternative fails when the alternative's
first character differs from the next input character. -/
theorem acceptOne_cons_ne (c2 : Char) (v2 : List Char) (st : St) (c : Char)
    (rest : List Char) (hta : textAfter st = c :: rest) (hne : c2 ≠ c) :
    acceptOne (c2 :: v2) st = none := by
  simp [acceptOne, peekN, hta, List.take_succ_cons, hne.symm]

/-- Helper: `accept(*alts)` fails when every alternative starts with a
character other than the next input character. -/
theorem acceptL_all_ne (alts : List (List Char)) (st : St) (c : Char)
    (rest : List Char) (hta : textAfter st = c :: rest)
    (halts : ∀ v ∈ alts, ∃ c2 v2, v = c2 :: v2 ∧ c2 ≠ c) :
    acceptL alts st = ([], st) := by
  induction alts with
  | nil => rfl
  | cons v vs ih =>
    obtain ⟨c2, v2, hv, hne⟩ := halts v (List.mem_cons_self v vs)
    subst hv
    rw [acceptL, acceptOne_cons_ne c2 v2 st c rest hta hne]
    exact ih (fun v hv => halts v (List.mem_cons_of_mem _ hv))

/-- Helper: the `tag` state raises "No valid tag found" whenever the next
character matches no tag leader: not a verbatim leader, filter, pipe or
control-tag head, not a tag character, and not a `div`-shorthand
qualifier opener. -/
theorem stTag_ws (st : St) (c : Char) (rest : List Char)
    (hta : textAfter st = c :: rest)
    (h1 : isTagChar c = false)
    (h2 : ∀ d ∈ cs "/-=!:|ebdifap", d ≠ c)
    (h3 : ¬ c ∈ cs ".#(") :
    stTag st = .err (mkError (bumpBlocks st) false (cs "No valid tag found"))
      (bumpBlocks st) := by
  have hta1 : textAfter (bumpBlocks st) = c :: rest := hta
  have e1 : acceptL [cs "//-", cs "-", cs "=", cs "!="] (bumpBlocks st)
      = ([], bumpBlocks st) := by
    refine acceptL_all_ne _ _ c rest hta1 ?_
    intro v hv
    fin_cases hv
    · exact ⟨'/', cs "/-", by decide, h2 '/' (by decide)⟩
    · exact ⟨'-', [], by decide, h2 '-' (by decide)⟩
    · exact ⟨'=', [], by decide, h2 '=' (by decide)⟩
    · exact ⟨'!', cs "=", by decide, h2 '!' (by decide)⟩
  have e2 : acceptL [cs ":"] (bumpBlocks st) = ([], bumpBlocks st) := by
    refine acceptL_all_ne _ _ c rest hta1 ?_
    intro v hv
    fin_cases hv
    · exact ⟨':', [], by decide, h2 ':' (by decide)⟩
  have e3 : acceptL [cs "|"] (bumpBlocks st) = ([], bumpBlocks st) := by
    refine acceptL_all_ne _ _ c rest hta1 ?_
    intro v hv
    fin_cases hv
    · exact ⟨'|', [], by decide, h2 '|' (by decide)⟩
  have e4 : acceptL controlTags (bumpBlocks st) = ([], bumpBlocks st) := by
    refine acceptL_all_ne _ _ c rest hta1 ?_
    intro v hv
    fin_cases hv
    · exact ⟨'e', cs "lse if", by decide, h2 'e' (by decide)⟩
    · exact ⟨'!', cs "!!", by decide, h2 '!' (by decide)⟩
    · exact ⟨'e', cs "ach", by decide, h2 'e' (by decide)⟩
    · exact ⟨'b', cs "lock append", by decide, h2 'b' (by decide)⟩
    · exact ⟨'b', cs "lock prepend", by decide, h2 'b' (by decide)⟩
    · exact ⟨'/', cs "/", by decide, h2 '/' (by decide)⟩
    · exact ⟨'d', cs "octype", by decide, h2 'd' (by decide)⟩
    · exact ⟨'e', cs "xtends", by decide, h2 'e' (by decide)⟩
    · exact ⟨'i', cs "f", by decide, h2 'i' (by decide)⟩
    · exact ⟨'e', cs "lif", by decide, h2 'e' (by decide)⟩
    · exact ⟨'e', cs "lse", by decide, h2 'e' (by decide)⟩
    · exact ⟨'f', cs "or", by decide, h2 'f' (by decide)⟩
    · exact ⟨'b', cs "lock", by decide, h2 'b' (by decide)⟩
    · exact ⟨'a', cs "ppend", by decide, h2 'a' (by decide)⟩
    · exact ⟨'p', cs "repend", by decide, h2 'p' (by decide)⟩
  have e5 : acceptRun isTagChar (bumpBlocks st) = ([], bumpBlocks st) := by
    simp [acceptRun, hta1, List.takeWhile_cons, h1, advanceN]
  have e6 : peekMem (bumpBlocks st) (cs ".#(") = false := by
    simp [peekMem, peek1, hta1]
    simpa using h3
  rw [stTag]
  rw [e1]
  simp only [ne_eq, not_true_eq_false, if_false, reduceIte]
  rw [tagFilterStage, e2]
  simp only [ne_eq, not_true_eq_false, if_false, reduceIte]
  rw [tagPipeStage, e3]
  simp only [ne_eq, not_true_eq_false, if_false, reduceIte]
  rw [tagControlStage, e4]
  simp only [reduceDIte]
  rw [tagHtmlStage, e5]
  simp only [ne_eq, not_true_eq_false, if_false, reduceIte, e6]
  simp

/-- C9: for every non-empty input whose first character is a space, tab,
or newline, the compile fails with the user error "No valid tag found"
(not an internal bug) and emits no output — the parser starts in the
`tag` state, which recognizes no leading whitespace, rather than in
`indent`. -/
theorem c9_leading_whitespace_rejected (c : Char) (rest : List Char) (fuel : Nat)
    (h : c = ' ' ∨ c = '\t' ∨ c = '\n') :
    (runJade (fuel + 1) (c :: rest)).errMsg = some (cs "No valid tag found") ∧
    (runJade (fuel + 1) (c :: rest)).errIsBug = some false ∧
    (runJade (fuel + 1) (c :: rest)).outText = [] := by
  have key : stTag (St.init (c :: rest)) = .err
      (mkError (bumpBlocks (St.init (c :: rest))) false (cs "No valid tag found"))
      (bumpBlocks (St.init (c :: rest))) := by
    rcases h with rfl | rfl | rfl <;>
      exact stTag_ws _ _ rest rfl (by decide) (by decide) (by decide)
  have hrun : runJade (fuel + 1) (c :: rest) =
      .failed (mkError (bumpBlocks (St.init (c :: rest))) false (cs "No valid tag found"))
        (bumpBlocks (St.init (c :: rest))) := by
    rw [runJade, runFrom]
    have h0 : ¬ ((St.init (c :: rest)).start ≠ (St.init (c :: rest)).pos) := by
      simp [St.init]
    rw [if_neg h0]
    have hoff : offEnd (St.init (c :: rest)) = false := by
      simp [offEnd, St.init]
    simp only [step, hoff, Bool.false_eq_true, if_false, key]
  refine ⟨?_, ?_, ?_⟩ <;>
    simp [hrun, Result.errMsg, Result.errIsBug, Result.outText, Result.state, mkError,
      bumpBlocks, St.init]

/-- Witness for C9: the leading-space case at a concrete input. -/
theorem c9_witness :
    (' ' = ' ' ∨ ' ' = '\t' ∨ ' ' = '\n') ∧
    ((runJade 1 (' ' :: cs "p")).errMsg = some (cs "No valid tag found") ∧
     (runJade 1 (' ' :: cs "p")).errIsBug = some false ∧
     (runJade 1 (' ' :: cs "p")).outText = []) :=
  ⟨Or.inl rfl, c9_leading_whitespace_rejected ' ' (cs "p") 0 (Or.inl rfl)⟩

/-- C10: when the input ends inside a verbatim block without a trailing
newline, the scan stops at EOF with an empty measured indentation, still
backs up by the indentation length plus one — one position, past where the
newline would have been — and emits the collected literal, which therefore
omits the final character of the input; that character is re-scanned as
the start of a new line.  Concretely `- foo` compiles to
`\x7b% fo %\x7d`: the literal is `fo`, and the trailing `o` is re-read as
a fresh HTML tag. -/
theorem c10_verbatim_eof_backs_up :
    (∀ (fuel : Nat) (st : St), st.text.length ≤ st.pos →
      verbLoop (fuel + 1) st =
        .next .indent
          (cLiteral (concludeL (backupN 1 st)).1 (concludeL (backupN 1 st)).2)) ∧
    (runJade 300 (cs "- foo")).isDone = true ∧
    (runJade 300 (cs "- foo")).outText = cs "\x7b% fo %\x7d" ∧
    (runJade 300 (cs "- foo")).state.thisTag.name = cs "o" := by
  refine ⟨?_, by decide, by decide, by decide⟩
  intro fuel st h
  have hd : textAfter st = [] := by
    simp [textAfter, List.drop_eq_nil_iff.mpr]
    omega
  simp [verbLoop, acceptRun, hd, properlyExtends, advanceN]

/-- Witness for C10: the EOF case of the verbatim loop at a concrete state. -/
theorem c10_witness :
    (St.init []).text.length ≤ (St.init []).pos ∧
    verbLoop 1 (St.init []) =
      .next .indent
        (cLiteral (concludeL (backupN 1 (St.init []))).1
          (concludeL (backupN 1 (St.init []))).2) :=
  ⟨by decide, c10_verbatim_eof_backs_up.1 0 (St.init []) (by decide)⟩

end Jade
